import Mathlib

/-!
Shallow embedding of the rusty_di_runner batch document-analysis client
(src/models/analysis_client.rs, src/models/credentials.rs,
src/clients/base.rs, src/clients/document_intelligence.rs,
src/utils/helpers.rs) together with theorems checking the
natural-language specification against it.

Rust strings are modelled as Lean `String`; character-level operations
(`str::trim`, `str::to_lowercase`) are modelled on the ASCII range that
all strings compared by the program live in (`Char.isWhitespace` covers
the ASCII subset of Rust `char::is_whitespace`; `Char.toLower` is the
ASCII lowering, which agrees with Rust `to_lowercase` on ASCII input).
-/

deriving instance DecidableEq for Except

/-- Rust `str::trim` (both ends), on the ASCII whitespace subset. -/
def rust_trim (s : String) : String :=
  ⟨((s.data.dropWhile Char.isWhitespace).reverse.dropWhile Char.isWhitespace).reverse⟩

/-- Rust `str::to_lowercase`, restricted to its ASCII behaviour. -/
def rust_to_lowercase (s : String) : String :=
  ⟨s.data.map Char.toLower⟩

/-- Rust `endpoint.trim_end_matches('/')` — removes EVERY trailing `'/'`
(src/clients/document_intelligence.rs line 22). -/
def trim_end_matches_slash (s : String) : String :=
  ⟨(s.data.reverse.dropWhile (fun c => c == '/')).reverse⟩

/-- Rust `Vec::join(",")` on a list of feature strings
(src/clients/document_intelligence.rs line 32). -/
def join_comma : List String → String
  | [] => ""
  | [f] => f
  | f :: g :: fs => f ++ "," ++ join_comma (g :: fs)

/-- Output content format enum, from src/models/analysis_client.rs lines 29-34.
`Text` carries the `#[default]` attribute in the source. -/
inductive OutputContentFormat where
  | Text
  | Markdown
deriving DecidableEq

/-- Rust `OutputContentFormat::default()` — the `#[default]` variant is `Text`. -/
def OutputContentFormat.default : OutputContentFormat := .Text

/-- Rust `Display` impl for `OutputContentFormat`
(src/models/analysis_client.rs lines 51-58). -/
def OutputContentFormat.render : OutputContentFormat → String
  | .Markdown => "markdown"
  | .Text => "text"

/-- Rust `OutputContentFormat::from_str` (src/models/analysis_client.rs
lines 36-49): match on `s.trim().to_lowercase().as_str()`; the error is a
`PyValueError` whose message embeds the original `s`. -/
def OutputContentFormat.from_str (s : String) : Except String OutputContentFormat :=
  let t := rust_to_lowercase (rust_trim s)
  if t = "text" then .ok .Text
  else if t = "markdown" then .ok .Markdown
  else .error ("Invalid output format: '" ++ s ++ "'. Expected 'text' or 'markdown'.")

/-- Parse outcome of `from_str` with the error payload forgotten: which
format was parsed, or that parsing failed. -/
def parse_outcome (s : String) : Except Unit OutputContentFormat :=
  (OutputContentFormat.from_str s).mapError (fun _ => ())

/-- Model of `secrecy::SecretString` (dependency used in
src/models/credentials.rs): the wrapped plaintext is reachable only
through `expose_secret`, and the `Debug` rendering is a fixed redacted
string that never depends on the wrapped value. -/
structure SecretString where
  secret : String

/-- Rust `secrecy::ExposeSecret::expose_secret` — the single explicit
unwrap of the plaintext. -/
def SecretString.expose_secret (k : SecretString) : String := k.secret

/-- Debug rendering of `secrecy::SecretBox<str>` — a constant redacted
placeholder, independent of the wrapped plaintext. -/
def SecretString.debug_render (_ : SecretString) : String :=
  "SecretBox<str>([REDACTED])"

/-- Credentials pair from src/models/credentials.rs lines 17-21. -/
structure Credentials where
  api_key : SecretString
  endpoint : String

/-- Rust `Credentials::new` (src/models/credentials.rs lines 24-31). -/
def Credentials.new (endpoint api_key : String) : Credentials :=
  ⟨⟨api_key⟩, endpoint⟩

/-- Hard-coded `api_version` constant
(src/clients/document_intelligence.rs line 24). -/
def api_version : String := "2024-11-30"

/-- Submission URL assembly extracted verbatim from
src/clients/document_intelligence.rs lines 22-34: trim trailing slashes
from the endpoint, `format!` the path and the two query parameters, then
push `&features=...` only when the feature list is present and
non-empty. -/
def build_analyze_url (endpoint_raw model_id output_format : String)
    (features : Option (List String)) : String :=
  let endpoint := trim_end_matches_slash endpoint_raw
  let analyze_url := endpoint ++ "/documentintelligence/documentModels/" ++ model_id
      ++ ":analyze?api-version=" ++ api_version ++ "&outputContentFormat=" ++ output_format
  match features with
  | some feature_list =>
      if feature_list.isEmpty then analyze_url
      else analyze_url ++ "&features=" ++ join_comma feature_list
  | none => analyze_url

/-- Trimming of exactly one trailing slash, following the specification
sentence "Trim exactly one trailing `/` from `endpoint`". -/
def spec_trim_one_slash (s : String) : String :=
  match s.data.reverse with
  | '/' :: rest => ⟨rest.reverse⟩
  | _ => s

/-- Submission URL as the specification words it, parameterised by the
endpoint-trimming function: trimmed endpoint, then the literal path and
query `/documentintelligence/documentModels/<model_id>:analyze?api-version=2024-11-30&outputContentFormat=<fmt>`,
then `&features=<comma-joined>` iff the feature list is present and
non-empty. -/
def spec_submission_url (trim_endpoint : String → String)
    (endpoint model_id output_format : String) (features : Option (List String)) : String :=
  trim_endpoint endpoint ++ "/documentintelligence/documentModels/" ++ model_id
    ++ ":analyze?api-version=2024-11-30&outputContentFormat=" ++ output_format
    ++ (match features with
        | some fl => if fl.isEmpty then "" else "&features=" ++ join_comma fl
        | none => "")

/-- Extension lookup of `utils::helpers::get_content_type`
(src/utils/helpers.rs lines 3-13), factored over the extension already
extracted from the path. The string patterns are exactly the source's
lowercase literals. -/
def content_type_of_extension : Option String → String
  | some s =>
    if s = "pdf" then "application/pdf"
    else if s = "jpg" ∨ s = "jpeg" then "image/jpeg"
    else if s = "png" then "image/png"
    else if s = "tiff" ∨ s = "tif" then "image/tiff"
    else if s = "bmp" then "image/bmp"
    else "application/octet-stream"
  | none => "application/octet-stream"

/-- Splitting a character list at `'/'` separators, for the
`std::path::Path` component view. -/
def split_slash : List Char → List (List Char)
  | [] => [[]]
  | c :: rest =>
    if c = '/' then [] :: split_slash rest
    else
      match split_slash rest with
      | [] => [[c]]
      | g :: gs => (c :: g) :: gs

/-- Model of `Path::new(p).file_name()`: the last non-empty, non-`"."`
component, and `None` when that component is `".."` or absent. -/
def path_file_name (p : String) : Option (List Char) :=
  let comps := (split_slash p.data).filter (fun g => !(g = [] ∨ g = ['.']))
  match comps.getLast? with
  | some f => if f = ['.', '.'] then none else some f
  | none => none

/-- Model of `OsStr` extension extraction on a file name: the portion
after the final `'.'`, or `None` when there is no `'.'` or the only
`'.'` is the leading character (hidden files like `.gitignore`). -/
def extension_of_file_name (f : List Char) : Option (List Char) :=
  let r := f.reverse
  match r.dropWhile (fun c => !(c = '.')) with
  | '.' :: before_rev => if before_rev = [] then none else some ((r.takeWhile (fun c => !(c = '.'))).reverse)
  | _ => none

/-- Model of `Path::new(file_path).extension().and_then(|s| s.to_str())`
(src/utils/helpers.rs line 5). -/
def path_extension (file_path : String) : Option String :=
  match path_file_name file_path with
  | some f => (extension_of_file_name f).map (fun e => (⟨e⟩ : String))
  | none => none

/-- Rust `get_content_type` (src/utils/helpers.rs lines 3-13). -/
def get_content_type (file_path : String) : String :=
  content_type_of_extension (path_extension file_path)

/-- Outcome of one spawned driver task as seen through tokio's
`JoinHandle`: either the task completed with the driver's
`anyhow::Result` (modelled as `Except String`), or the task terminated
abnormally (`JoinError`, e.g. a panic). -/
inductive JoinOutcome (α : Type) where
  | completed (r : Except String α)
  | faulted (msg : String)

/-- Per-item collection step of `process_documents_async_from_urls`
(src/clients/base.rs lines 77-86): a `JoinError` becomes a
`Task panicked: ...` string, a driver error is wrapped as
`API Error: ...`, and a driver success is passed through. -/
def collapse_join {α : Type} : JoinOutcome α → Except String α
  | .faulted m => .error ("Task panicked: " ++ m)
  | .completed (.ok v) => .ok v
  | .completed (.error e) => .error ("API Error: " ++ e)

/-- List map carrying the position of each element, starting at `start`.
Used to pair each input with the spawned task that drives it. -/
def map_with_index_from {α β : Type} (f : Nat → α → β) : Nat → List α → List β
  | _, [] => []
  | start, a :: rest => f start a :: map_with_index_from f (start + 1) rest

/-- The client struct (src/models/analysis_client.rs lines 25-28); the
tokio `Runtime` field carries no observable state and is omitted. -/
structure RustyAnalysisClient where
  credentials : List Credentials

/-- Rust `RustyAnalysisClient::new` (src/models/analysis_client.rs lines
80-92): stores the credential list unconditionally — there is no
emptiness check — and always returns `Ok`. The `enable_logs` flag only
initialises the tracing sink. -/
def RustyAnalysisClient.new (credentials : List Credentials) (enable_logs : Bool) :
    Except String RustyAnalysisClient :=
  .ok ⟨credentials⟩

/-- Semaphore capacity computed by `process_batch_documents_from_urls`
(src/models/analysis_client.rs line 144):
`max_rps.unwrap_or(15) * self.credentials.len()`. -/
def semaphore_size (max_rps : Option Nat) (credentials : List Credentials) : Nat :=
  max_rps.getD 15 * credentials.length

/-- Batch fan-out and ordered collection of
`process_documents_async_from_urls` (src/clients/base.rs lines 43-87).
One task is spawned per input URL in input order; `join_all` returns the
join results in that same spawn order, and the final map collapses each
join result in place. The body of the spawned task (semaphore admission,
atomic credential pick, LRO drive — whose value depends on scheduling
and I/O) is abstracted as the environment `tasks`, indexed by the task's
spawn position and input. -/
def process_documents_async_from_urls {α : Type} (document_urls : List String)
    (tasks : Nat → String → JoinOutcome α) : List (Except String α) :=
  map_with_index_from (fun i url => collapse_join (tasks i url)) 0 document_urls

/-- Batch fan-out of `process_documents_async_from_file_paths`
(src/clients/base.rs lines 89-133) — textually the same orchestration as
the URL variant, calling `analyze_document_from_file_path` inside each
task. -/
def process_documents_async_from_file_paths {α : Type} (file_paths : List String)
    (tasks : Nat → String → JoinOutcome α) : List (Except String α) :=
  map_with_index_from (fun i path => collapse_join (tasks i path)) 0 file_paths

/-- Rust `process_batch_documents_from_urls` (src/models/analysis_client.rs
lines 133-183): computes the semaphore size, normalises `output_format`
(an invalid value returns the `PyValueError` for the whole call before
the runtime is entered, i.e. before any task is spawned or any network
I/O happens), then runs the async batch. -/
def process_batch_documents_from_urls {α : Type} (self : RustyAnalysisClient)
    (model_id : String) (document_urls : List String) (features : Option (List String))
    (output_format : Option String) (max_rps : Option Nat)
    (tasks : Nat → String → JoinOutcome α) : Except String (List (Except String α)) :=
  let _sem := semaphore_size max_rps self.credentials
  match (match output_format with
         | some s => OutputContentFormat.from_str s
         | none => Except.ok OutputContentFormat.default) with
  | .error e => .error e
  | .ok _format_enum => .ok (process_documents_async_from_urls document_urls tasks)

/-- Rust `process_batch_documents_from_file_paths`
(src/models/analysis_client.rs lines 231-279), same validation sequence
as the URL variant. -/
def process_batch_documents_from_file_paths {α : Type} (self : RustyAnalysisClient)
    (model_id : String) (file_paths : List String) (features : Option (List String))
    (output_format : Option String) (max_rps : Option Nat)
    (tasks : Nat → String → JoinOutcome α) : Except String (List (Except String α)) :=
  let _sem := semaphore_size max_rps self.credentials
  match (match output_format with
         | some s => OutputContentFormat.from_str s
         | none => Except.ok OutputContentFormat.default) with
  | .error e => .error e
  | .ok _format_enum => .ok (process_documents_async_from_file_paths file_paths tasks)

/-- Phase of one spawned task with respect to the admission semaphore
(`tokio::sync::Semaphore`, src/clients/base.rs lines 54 and 66): still
waiting in `acquire()`, past the gate holding its permit (`_permit` is
held for the rest of the task body), or finished with the permit
dropped. -/
inductive TaskPhase where
  | waiting
  | admitted
  | finished
deriving DecidableEq

/-- Number of tasks currently past the admission gate (holding a
permit). -/
def admitted_count (ts : List TaskPhase) : Nat :=
  ts.countP (fun p => p == TaskPhase.admitted)

/-- Transition relation of the admission semaphore with `cap` permits: a
waiting task may pass `acquire()` only while fewer than `cap` permits
are out, and an admitted task may finish, dropping its permit. -/
inductive SemaphoreStep (cap : Nat) : List TaskPhase → List TaskPhase → Prop where
  | acquire (ts : List TaskPhase) (i : Nat)
      (hw : ts[i]? = some TaskPhase.waiting)
      (hcap : admitted_count ts < cap) :
      SemaphoreStep cap ts (ts.set i TaskPhase.admitted)
  | release (ts : List TaskPhase) (i : Nat)
      (ha : ts[i]? = some TaskPhase.admitted) :
      SemaphoreStep cap ts (ts.set i TaskPhase.finished)

/-- States reachable by a batch of `n` tasks that all start waiting on a
semaphore with `cap` permits. -/
inductive SemaphoreReach (cap n : Nat) : List TaskPhase → Prop where
  | start : SemaphoreReach cap n (List.replicate n TaskPhase.waiting)
  | step {ts ts2 : List TaskPhase} :
      SemaphoreReach cap n ts → SemaphoreStep cap ts ts2 → SemaphoreReach cap n ts2

/-- Round-robin credential selection as executed inside each spawned
task (src/clients/base.rs lines 66-69): the `AtomicUsize::fetch_add`
happens after semaphore admission, inside the task body, so the `k`-th
task to REACH the counter (an order chosen by the scheduler, not by the
spawn order) observes `old_index = k` and selects credential
`k mod list_len`. `arrival` lists the inputs in counter-arrival order;
the credential index used for input `i` is therefore the arrival rank of
`i` modulo the credential-list length. -/
def credential_index_of_input (arrival : List Nat) (list_len : Nat) (i : Nat) : Nat :=
  arrival.indexOf i % list_len

/-- Arrival-order view of the same assignment: the task arriving `k`-th
at the counter is paired with credential index `k mod list_len`. -/
def rotation_assignment (arrival : List Nat) (list_len : Nat) : List (Nat × Nat) :=
  map_with_index_from (fun k input => (input, k % list_len)) 0 arrival

/-- Action taken by one iteration of the polling loop: finish with a
result (success payload or error string), or keep polling. -/
inductive PollAction (α : Type) where
  | finish (r : Except String α)
  | continuePolling
deriving DecidableEq

/-- The status branch of the polling loop, verbatim from
src/clients/document_intelligence.rs lines 79-88: `match
status_response.status.as_str()` with arms `"succeeded"` (result present
→ return it, absent → error), `"failed"`, `"running" | "notStarted"`
(continue), and a catch-all naming the unknown status. -/
def poll_transition {α : Type} (status : String) (result : Option α) : PollAction α :=
  if status = "succeeded" then
    match result with
    | some v => .finish (.ok v)
    | none => .finish (.error "API succeeded but returned no result")
  else if status = "failed" then .finish (.error "Document analysis failed")
  else if status = "running" ∨ status = "notStarted" then .continuePolling
  else .finish (.error ("Unknown status: " ++ status))

/-- One HTTP request as emitted by the driver; `auth_key_header` is the
plaintext placed in `Ocp-Apim-Subscription-Key` (the single place
`expose_secret` feeds). -/
structure HttpRequest where
  method : String
  url : String
  auth_key_header : String

/-- Environment response to the submission POST, covering every exit of
lines 40-55 of src/clients/document_intelligence.rs: a transport error
from `send()`, a non-2xx turned into an error by `error_for_status()`
(both carry reqwest-generated messages, which never include the
sensitive auth header), a 2xx missing the `operation-location` header, a
2xx whose header value fails `to_str()`, or a usable polling URL. -/
inductive SubmitOutcome where
  | send_error (msg : String)
  | http_status_error (msg : String)
  | ok_missing_op_loc
  | ok_bad_op_loc
  | ok (operation_location : String)

/-- Environment response to the `k`-th polling GET (lines 63-71):
transport error, non-2xx, JSON decode failure of the status envelope, or
a decoded `StatusResponse { status, analyzeResult }`. -/
inductive PollOutcome (α : Type) where
  | send_error (msg : String)
  | http_status_error (msg : String)
  | parse_error (msg : String)
  | ok (status : String) (result : Option α)

/-- HTTP environment for driving a single document. -/
structure HttpEnv (α : Type) where
  submit : SubmitOutcome
  poll : Nat → PollOutcome α

/-- Driver result: finished with the driver's `anyhow::Result`, or still
polling when the observation fuel ran out (the source loop has no
deadline and will poll forever while the server answers
`running`/`notStarted`). -/
inductive DriverResult (α : Type) where
  | done (r : Except String α)
  | stillPolling
deriving DecidableEq

/-- Observable trace of one driver run: the requests it sent, the log
lines it emitted through `tracing::info!`, and its result. -/
structure DriverTrace (α : Type) where
  requests : List HttpRequest
  logs : List String
  result : DriverResult α

/-- Validity check performed by `HeaderValue::from_str` on the exposed
api key (src/clients/document_intelligence.rs line 36): visible ASCII or
horizontal tab. Its failure message is a constant that does not echo the
value. -/
def valid_header_value (s : String) : Bool :=
  s.data.all (fun c => (32 ≤ c.toNat && c.toNat ≤ 126) || c.toNat = 9)

/-- Polling loop of `analyze_document_from_urls` (lines 62-89): sleep,
GET the operation location with the same auth header, log the status,
branch via `poll_transition`. `k` counts the polls already made; `fuel`
bounds how many further iterations are observed. -/
def poll_loop {α : Type} (auth : String) (operation_location : String) (env : HttpEnv α) :
    Nat → Nat → List HttpRequest × List String × DriverResult α
  | _, 0 => ([], [], .stillPolling)
  | k, fuel + 1 =>
    let req : HttpRequest := ⟨"GET", operation_location, auth⟩
    match env.poll k with
    | .send_error m => ([req], [], .done (.error m))
    | .http_status_error m => ([req], [], .done (.error m))
    | .parse_error m => ([req], [], .done (.error m))
    | .ok st r =>
      let log := "Polling status response: " ++ st
      match poll_transition st r with
      | .finish res => ([req], [log], .done res)
      | .continuePolling =>
        let rest := poll_loop auth operation_location env (k + 1) fuel
        (req :: rest.1, log :: rest.2.1, rest.2.2)

/-- LRO driver `analyze_document_from_urls`
(src/clients/document_intelligence.rs lines 14-90): build the submission
URL, expose the api key only to build the auth header, POST, extract
`operation-location` (logging it on success), then poll. Error strings
are exactly the source's `anyhow!` messages. -/
def analyze_document_from_urls {α : Type} (model_id : String) (creds : Credentials)
    (document_url output_format : String) (features : Option (List String))
    (env : HttpEnv α) (fuel : Nat) : DriverTrace α :=
  let analyze_url := build_analyze_url creds.endpoint model_id output_format features
  let auth := creds.api_key.expose_secret
  if valid_header_value auth then
    let submit_req : HttpRequest := ⟨"POST", analyze_url, auth⟩
    match env.submit with
    | .send_error m => ⟨[submit_req], [], .done (.error m)⟩
    | .http_status_error m => ⟨[submit_req], [], .done (.error m)⟩
    | .ok_missing_op_loc =>
        ⟨[submit_req], [], .done (.error "Response missing 'operation-location' header")⟩
    | .ok_bad_op_loc => ⟨[submit_req], [], .done (.error "failed to convert header to a str")⟩
    | .ok loc =>
        let rest := poll_loop auth loc env 0 fuel
        ⟨submit_req :: rest.1, ("Operation Location: " ++ loc) :: rest.2.1, rest.2.2⟩
  else ⟨[], [], .done (.error "failed to parse header value")⟩

/-- Concrete task environment for witnesses: item 1 fails at the driver
level, every other item succeeds with its own index as payload. -/
def witness_tasks : Nat → String → JoinOutcome Nat :=
  fun i _ => if i = 1 then .completed (.error "boom") else .completed (.ok i)

/-- Variant of `witness_tasks` differing only at index 1 (the task
faults there instead). -/
def witness_tasks_alt : Nat → String → JoinOutcome Nat :=
  fun i _ => if i = 1 then .faulted "cancelled" else .completed (.ok i)

/-- Concrete HTTP environment for witnesses: submission yields an
operation location, the first poll answers `running`, the second
`succeeded` with payload `7`. -/
def witness_env : HttpEnv Nat :=
  ⟨SubmitOutcome.ok "https://r.example/op/1",
   fun k => if k = 0 then PollOutcome.ok "running" none
            else PollOutcome.ok "succeeded" (some 7)⟩

theorem map_with_index_from_length {α β : Type} (f : Nat → α → β) :
    ∀ (start : Nat) (l : List α), (map_with_index_from f start l).length = l.length := by
  intro start l
  induction l generalizing start with
  | nil => rfl
  | cons a rest ih => simp [map_with_index_from, ih]

theorem map_with_index_from_getElem? {α β : Type} (f : Nat → α → β) :
    ∀ (l : List α) (start i : Nat),
      (map_with_index_from f start l)[i]? = (l[i]?).map (f (start + i)) := by
  intro l
  induction l with
  | nil => intro start i; simp [map_with_index_from]
  | cons a rest ih =>
    intro start i
    cases i with
    | zero => simp [map_with_index_from]
    | succ j =>
      simp only [map_with_index_from, List.getElem?_cons_succ]
      rw [ih (start + 1) j]
      have harith : start + 1 + j = start + (j + 1) := by omega
      rw [harith]

/-- C1: for every batch call (URL or file-path variant) with N input
items, the returned list has exactly N elements; element i is the
collapsed outcome of the task spawned for input i (the success payload
when the driver succeeded, an `API Error: ...` descriptor when the
driver failed, a `Task panicked: ...` descriptor when the task
terminated abnormally); the batch call itself returns `Ok` regardless of
per-item failures; and changing only task i's outcome leaves every other
position of the result unchanged. -/
theorem batch_positionwise_outcomes {α : Type} (document_urls file_paths : List String)
    (tasks tasks2 : Nat → String → JoinOutcome α) :
    (process_documents_async_from_urls document_urls tasks).length = document_urls.length
    ∧ (process_documents_async_from_file_paths file_paths tasks).length = file_paths.length
    ∧ (∀ i url, document_urls[i]? = some url →
        (process_documents_async_from_urls document_urls tasks)[i]? =
          some (collapse_join (tasks i url)))
    ∧ (∀ i path, file_paths[i]? = some path →
        (process_documents_async_from_file_paths file_paths tasks)[i]? =
          some (collapse_join (tasks i path)))
    ∧ (∀ v : α, collapse_join (JoinOutcome.completed (Except.ok v)) = Except.ok v)
    ∧ (∀ e, collapse_join (α := α) (JoinOutcome.completed (Except.error e)) =
        Except.error ("API Error: " ++ e))
    ∧ (∀ m, collapse_join (α := α) (JoinOutcome.faulted m) =
        Except.error ("Task panicked: " ++ m))
    ∧ (∀ self model_id features max_rps,
        process_batch_documents_from_urls self model_id document_urls features none max_rps tasks
          = Except.ok (process_documents_async_from_urls document_urls tasks))
    ∧ (∀ i, (∀ j, j ≠ i → tasks j = tasks2 j) → ∀ j, j ≠ i →
        (process_documents_async_from_urls document_urls tasks)[j]? =
          (process_documents_async_from_urls document_urls tasks2)[j]?) := by
  refine ⟨?_, ?_, ?_, ?_, ?_, ?_, ?_, ?_, ?_⟩
  · exact map_with_index_from_length _ 0 document_urls
  · exact map_with_index_from_length _ 0 file_paths
  · intro i url hi
    unfold process_documents_async_from_urls
    rw [map_with_index_from_getElem?, hi]
    simp
  · intro i path hi
    unfold process_documents_async_from_file_paths
    rw [map_with_index_from_getElem?, hi]
    simp
  · intro v; rfl
  · intro e; rfl
  · intro m; rfl
  · intro self model_id features max_rps; rfl
  · intro i hagree j hji
    unfold process_documents_async_from_urls
    rw [map_with_index_from_getElem?, map_with_index_from_getElem?]
    cases hurl : document_urls[j]? with
    | none => simp
    | some url => simp [hagree j hji]

/-- Witness for C1 at a concrete batch of three URLs, where item 1 fails
and items 0 and 2 succeed, and an alternative run whose only difference
is item 1's outcome. -/
theorem batch_positionwise_outcomes_witness :
    (process_documents_async_from_urls ["u0", "u1", "u2"] witness_tasks).length = 3
    ∧ (process_documents_async_from_urls ["u0", "u1", "u2"] witness_tasks)[1]? =
        some (Except.error ("API Error: " ++ "boom"))
    ∧ (process_documents_async_from_urls ["u0", "u1", "u2"] witness_tasks)[2]? =
        (process_documents_async_from_urls ["u0", "u1", "u2"] witness_tasks_alt)[2]? := by
  have h := batch_positionwise_outcomes (α := Nat) ["u0", "u1", "u2"] []
    witness_tasks witness_tasks_alt
  refine ⟨h.1, ?_, ?_⟩
  · have := h.2.2.1 1 "u1" (by decide)
    rw [this]
    decide
  · exact h.2.2.2.2.2.2.2.2 1
      (by intro j hj; funext u; simp [witness_tasks, witness_tasks_alt, hj])
      2 (by decide)

theorem admitted_count_replicate_waiting (n : Nat) :
    admitted_count (List.replicate n TaskPhase.waiting) = 0 := by
  induction n with
  | zero => rfl
  | succ m ih =>
    rw [List.replicate_succ]
    unfold admitted_count at ih ⊢
    rw [List.countP_cons]
    simp [ih]

theorem semaphore_invariant {cap n : Nat} :
    ∀ {ts : List TaskPhase}, SemaphoreReach cap n ts → admitted_count ts ≤ cap := by
  intro ts hreach
  induction hreach with
  | start => simp [admitted_count_replicate_waiting]
  | @step ts ts2 hprev hstep ih =>
    cases hstep with
    | acquire i hw hcap =>
      have hi : i < ts.length := by
        by_contra hge
        rw [List.getElem?_eq_none (by omega)] at hw
        exact Option.noConfusion hw
      have hget : ts[i] = TaskPhase.waiting := by
        have := List.getElem?_eq_getElem hi
        rw [this] at hw
        exact Option.some.inj hw.symm |>.symm
      unfold admitted_count at hcap ⊢
      rw [List.countP_set _ _ _ _ hi, hget]
      simp only [beq_iff_eq, reduceCtorEq, beq_self_eq_true, if_true, if_false,
        decide_True, decide_False]
      omega
    | release i ha =>
      have hi : i < ts.length := by
        by_contra hge
        rw [List.getElem?_eq_none (by omega)] at ha
        exact Option.noConfusion ha
      have hget : ts[i] = TaskPhase.admitted := by
        have := List.getElem?_eq_getElem hi
        rw [this] at ha
        exact Option.some.inj ha.symm |>.symm
      unfold admitted_count at ih ⊢
      rw [List.countP_set _ _ _ _ hi, hget]
      simp only [beq_iff_eq, reduceCtorEq, beq_self_eq_true, if_true, if_false,
        decide_True, decide_False]
      omega

/-- C2: the admission semaphore of a batch call is constructed with
capacity exactly `max_rps * credentials.len()` (`max_rps` defaulting to
15 when omitted), and in every state reachable by the spawned tasks no
more than that many tasks are past the admission gate (hold a permit)
simultaneously. -/
theorem admission_gate_capacity (max_rps : Option Nat) (creds : List Credentials)
    (n : Nat) (ts : List TaskPhase) :
    semaphore_size max_rps creds = max_rps.getD 15 * creds.length
    ∧ semaphore_size none creds = 15 * creds.length
    ∧ (SemaphoreReach (semaphore_size max_rps creds) n ts →
        admitted_count ts ≤ max_rps.getD 15 * creds.length) :=
  ⟨rfl, rfl, fun h => semaphore_invariant h⟩

/-- Witness for C2: one credential, `max_rps = 2`, three tasks; after
one admission the reachable state `[admitted, waiting, waiting]` holds
at most `2 * 1` permits. -/
theorem admission_gate_capacity_witness :
    SemaphoreReach (semaphore_size (some 2) [Credentials.new "https://r.example" "K"]) 3
      [TaskPhase.admitted, TaskPhase.waiting, TaskPhase.waiting]
    ∧ admitted_count [TaskPhase.admitted, TaskPhase.waiting, TaskPhase.waiting] ≤
        (some 2 : Option Nat).getD 15 * [Credentials.new "https://r.example" "K"].length := by
  have hre : SemaphoreReach (semaphore_size (some 2) [Credentials.new "https://r.example" "K"]) 3
      [TaskPhase.admitted, TaskPhase.waiting, TaskPhase.waiting] := by
    have hstep := @SemaphoreStep.acquire
      (semaphore_size (some 2) [Credentials.new "https://r.example" "K"])
      (List.replicate 3 TaskPhase.waiting) 0 (by decide) (by decide)
    exact SemaphoreReach.step SemaphoreReach.start hstep
  exact ⟨hre, (admission_gate_capacity (some 2) [Credentials.new "https://r.example" "K"]
    3 [TaskPhase.admitted, TaskPhase.waiting, TaskPhase.waiting]).2.2 hre⟩

theorem indexOf_range {M i : Nat} (h : i < M) : (List.range M).indexOf i = i := by
  induction M with
  | zero => omega
  | succ m ih =>
    rw [List.range_succ]
    by_cases hi : i < m
    · rw [List.indexOf_append_of_mem (by simp [List.mem_range]; omega)]
      exact ih hi
    · have heq : i = m := by omega
      subst heq
      rw [List.indexOf_append_of_not_mem (by simp [List.mem_range])]
      simp

/-- C3 counterexample: the claim says input `i` always uses credential
`i mod K` because the counter is read "at task entry"; but the
`fetch_add` runs inside the spawned task, after semaphore admission, so
the scheduler chooses the counter-arrival order. `[1, 0]` is a
legitimate arrival order for a batch of two inputs (a permutation of
`range 2`), and under it input `0` is assigned credential index `1`,
not `0 mod 2 = 0`. -/
theorem round_robin_not_input_order :
    [1, 0].Perm (List.range 2)
    ∧ credential_index_of_input [1, 0] 2 0 = 1
    ∧ ¬ credential_index_of_input [1, 0] 2 0 = 0 % 2 := by
  refine ⟨?_, by decide, by decide⟩
  decide

/-- C3 amended: with K credentials, the task arriving `k`-th at the
atomic round-robin counter observes `old_index = k` and uses credential
`k mod K`; the credential used for input `i` is its arrival rank mod K.
Only when the tasks reach the counter in input order (arrival =
`range M`) does input `i` use credential `i mod K`. -/
theorem round_robin_by_arrival_rank (arrival : List Nat) (K M i : Nat) :
    (∀ k input, arrival[k]? = some input →
      (rotation_assignment arrival K)[k]? = some (input, k % K))
    ∧ (∀ j, credential_index_of_input arrival K j = arrival.indexOf j % K)
    ∧ (i < M → credential_index_of_input (List.range M) K i = i % K) := by
  refine ⟨?_, fun j => rfl, ?_⟩
  · intro k input hk
    unfold rotation_assignment
    rw [map_with_index_from_getElem?, hk]
    simp
  · intro hiM
    unfold credential_index_of_input
    rw [indexOf_range hiM]

/-- Witness for C3 amended, at a concrete in-order arrival of four tasks
over two credentials: input 2 uses credential 0, and the arrival-rank
view pairs the third arrival with credential index 0. -/
theorem round_robin_by_arrival_rank_witness :
    ((2 : Nat) < 4 ∧ credential_index_of_input (List.range 4) 2 2 = 2 % 2)
    ∧ (rotation_assignment [3, 2, 1, 0] 2)[1]? = some (2, 1 % 2) := by
  constructor
  · exact ⟨by decide, (round_robin_by_arrival_rank (List.range 4) 2 4 2).2.2 (by decide)⟩
  · exact (round_robin_by_arrival_rank [3, 2, 1, 0] 2 4 2).1 1 2 (by decide)

theorem str_data_append (s t : String) : (s ++ t).data = s.data ++ t.data := rfl

theorem str_ext {s t : String} (h : s.data = t.data) : s = t := by
  cases s
  cases t
  exact congrArg String.mk h

/-- C4 counterexample: the claim says exactly ONE trailing `'/'` is
trimmed, but the source calls `trim_end_matches('/')`, which removes
every trailing slash. On the endpoint `https://r.example//` the built
URL differs from the claim's URL (which would keep one slash before the
path). -/
theorem submission_url_not_one_slash_trim :
    build_analyze_url "https://r.example//" "m" "text" none ≠
      spec_submission_url spec_trim_one_slash "https://r.example//" "m" "text" none := by
  decide

/-- C4 amended: the submission URL is a pure function of its inputs and
equals the endpoint with ALL trailing `'/'` characters trimmed (internal
slashes untouched), followed by
`/documentintelligence/documentModels/<model_id>:analyze?api-version=2024-11-30&outputContentFormat=<output_format>`,
with `&features=<comma-joined list>` appended iff the feature list is
present and non-empty (an empty list behaves as absent). -/
theorem submission_url_shape (endpoint model_id output_format : String)
    (features : Option (List String)) :
    build_analyze_url endpoint model_id output_format features
      = spec_submission_url trim_end_matches_slash endpoint model_id output_format features := by
  apply str_ext
  cases features with
  | none =>
    simp [build_analyze_url, spec_submission_url, str_data_append, api_version]
  | some fl =>
    by_cases hfl : fl.isEmpty
    · simp [build_analyze_url, spec_submission_url, str_data_append, api_version, hfl]
    · simp [build_analyze_url, spec_submission_url, str_data_append, api_version, hfl]

/-- Witness for C4 amended at scenario 2 of the specification: markdown
format with two features. -/
theorem submission_url_shape_witness :
    build_analyze_url "https://r.example/" "prebuilt-layout" "markdown"
        (some ["ocrHighResolution", "formulas"])
      = spec_submission_url trim_end_matches_slash "https://r.example/" "prebuilt-layout"
          "markdown" (some ["ocrHighResolution", "formulas"])
    ∧ build_analyze_url "https://r.example/" "prebuilt-layout" "markdown"
        (some ["ocrHighResolution", "formulas"])
      = "https://r.example/documentintelligence/documentModels/prebuilt-layout:analyze?api-version=2024-11-30&outputContentFormat=markdown&features=ocrHighResolution,formulas" :=
  ⟨submission_url_shape "https://r.example/" "prebuilt-layout" "markdown"
      (some ["ocrHighResolution", "formulas"]),
   by decide⟩

/-- C5: the polling loop branches on the status envelope exactly as
claimed: `succeeded` with a result returns it; `succeeded` without a
result fails with the protocol-violation message `API succeeded but
returned no result`; `failed` fails with `Document analysis failed`;
`running` and `notStarted` continue polling; any other status fails
naming the unknown status. -/
theorem poll_status_branching {α : Type} (status : String) (result : Option α) (v : α) :
    poll_transition (α := α) "succeeded" (some v) = PollAction.finish (Except.ok v)
    ∧ poll_transition (α := α) "succeeded" none
        = PollAction.finish (Except.error "API succeeded but returned no result")
    ∧ poll_transition "failed" result
        = PollAction.finish (Except.error "Document analysis failed")
    ∧ poll_transition "running" result = PollAction.continuePolling
    ∧ poll_transition "notStarted" result = PollAction.continuePolling
    ∧ (status ∉ (["succeeded", "failed", "running", "notStarted"] : List String) →
        poll_transition status result
          = PollAction.finish (Except.error ("Unknown status: " ++ status))) := by
  refine ⟨rfl, rfl, rfl, rfl, rfl, ?_⟩
  · intro h
    simp only [List.mem_cons, List.not_mem_nil, or_false] at h
    push_neg at h
    obtain ⟨h1, h2, h3, h4⟩ := h
    unfold poll_transition
    rw [if_neg h1, if_neg h2, if_neg (by tauto)]

/-- Witness for C5 at an unknown status value and a concrete payload. -/
theorem poll_status_branching_witness :
    poll_transition (α := Nat) "canceled" (some 3)
        = PollAction.finish (Except.error ("Unknown status: " ++ "canceled"))
    ∧ poll_transition (α := Nat) "succeeded" (some 3) = PollAction.finish (Except.ok 3) :=
  ⟨(poll_status_branching "canceled" (some 3) 3).2.2.2.2.2 (by decide),
   (poll_status_branching "succeeded" (some 3) 3).1⟩

/-- C6: `output_format` normalization trims whitespace and compares
case-insensitively (`s.trim().to_lowercase()`), mapping to `Text` or
`Markdown`; any other value makes the whole batch call return the
`PyValueError` — independent of the task environment, i.e. before any
task runs or any network I/O happens; and an omitted `output_format`
behaves exactly like `"text"`. -/
theorem output_format_normalization {α : Type} (s e : String) (self : RustyAnalysisClient)
    (model_id : String) (urls : List String) (features : Option (List String))
    (max_rps : Option Nat) (tasks : Nat → String → JoinOutcome α) :
    (rust_to_lowercase (rust_trim s) = "text" →
      OutputContentFormat.from_str s = Except.ok OutputContentFormat.Text)
    ∧ (rust_to_lowercase (rust_trim s) = "markdown" →
      OutputContentFormat.from_str s = Except.ok OutputContentFormat.Markdown)
    ∧ (rust_to_lowercase (rust_trim s) ≠ "text" → rust_to_lowercase (rust_trim s) ≠ "markdown" →
      OutputContentFormat.from_str s =
        Except.error ("Invalid output format: '" ++ s ++ "'. Expected 'text' or 'markdown'."))
    ∧ (OutputContentFormat.from_str s = Except.error e →
      process_batch_documents_from_urls self model_id urls features (some s) max_rps tasks
          = Except.error e
      ∧ process_batch_documents_from_file_paths self model_id urls features (some s) max_rps tasks
          = Except.error e)
    ∧ process_batch_documents_from_urls self model_id urls features none max_rps tasks
        = process_batch_documents_from_urls self model_id urls features (some "text") max_rps tasks
    ∧ OutputContentFormat.default = OutputContentFormat.Text := by
  refine ⟨?_, ?_, ?_, ?_, rfl, rfl⟩
  · intro h; simp [OutputContentFormat.from_str, h]
  · intro h; simp [OutputContentFormat.from_str, h]
  · intro h1 h2; simp [OutputContentFormat.from_str, h1, h2]
  · intro h
    constructor
    · simp [process_batch_documents_from_urls, h]
    · simp [process_batch_documents_from_file_paths, h]

/-- Witness for C6: `" TEXT "` parses to `Text`, and an invalid format
`"xml"` fails the whole batch call with the `PyValueError` message. -/
theorem output_format_normalization_witness :
    OutputContentFormat.from_str " TEXT " = Except.ok OutputContentFormat.Text
    ∧ process_batch_documents_from_urls ⟨[]⟩ "m" ["u"] none (some "xml") none witness_tasks
        = Except.error ("Invalid output format: '" ++ "xml" ++ "'. Expected 'text' or 'markdown'.") := by
  constructor
  · exact (output_format_normalization " TEXT " "" ⟨[]⟩ "m" ["u"] none none witness_tasks).1
      (by decide)
  · exact ((output_format_normalization "xml"
      ("Invalid output format: '" ++ "xml" ++ "'. Expected 'text' or 'markdown'.")
      ⟨[]⟩ "m" ["u"] none none witness_tasks).2.2.2.1 (by decide)).1

/-- C7: the claim says an empty credential list raises `InvalidInput`
synchronously at construction; the source constructor performs no such
check — `RustyAnalysisClient::new` stores the empty list and returns
`Ok` — and a subsequent batch call computes a semaphore capacity of
`max_rps * 0 = 0`, so no task can ever pass the admission gate. -/
theorem empty_credentials_not_rejected :
    RustyAnalysisClient.new [] true = Except.ok ⟨[]⟩
    ∧ RustyAnalysisClient.new [] false = Except.ok ⟨[]⟩
    ∧ semaphore_size (some 15) [] = 0
    ∧ semaphore_size none [] = 0 :=
  ⟨rfl, rfl, rfl, rfl⟩

theorem poll_loop_logs_result_key_free {α : Type} (a1 a2 loc : String) (env : HttpEnv α) :
    ∀ (fuel k : Nat), (poll_loop a1 loc env k fuel).2 = (poll_loop a2 loc env k fuel).2 := by
  intro fuel
  induction fuel with
  | zero => intro k; rfl
  | succ n ih =>
    intro k
    unfold poll_loop
    cases env.poll k with
    | send_error m => rfl
    | http_status_error m => rfl
    | parse_error m => rfl
    | ok st r =>
      cases htrans : poll_transition st r with
      | finish res => simp [htrans]
      | continuePolling => simp [htrans, ih]

theorem poll_loop_requests_auth {α : Type} (a loc : String) (env : HttpEnv α) :
    ∀ (fuel k : Nat) (req : HttpRequest), req ∈ (poll_loop a loc env k fuel).1 →
      req.auth_key_header = a := by
  intro fuel
  induction fuel with
  | zero => intro k req h; simp [poll_loop] at h
  | succ n ih =>
    intro k req h
    cases hp : env.poll k with
    | send_error m => simp [poll_loop, hp] at h; subst h; rfl
    | http_status_error m => simp [poll_loop, hp] at h; subst h; rfl
    | parse_error m => simp [poll_loop, hp] at h; subst h; rfl
    | ok st r =>
      cases htrans : poll_transition st r with
      | finish res => simp [poll_loop, hp, htrans] at h; subst h; rfl
      | continuePolling =>
        simp [poll_loop, hp, htrans] at h
        cases h with
        | inl he => subst he; rfl
        | inr hrest => exact ih (k + 1) req hrest

/-- C8: the plaintext api key never flows into the driver's logs or
result. Formally: (a) the redacted debug rendering of the secret wrapper
is the same constant for every wrapped value; (b) for two runs that
differ only in the api key (both keys being valid header values), the
emitted log lines and the driver result are identical — so no log line
or error string can contain the key; (c) when the key is not a valid
header value the run stops with the constant reqwest message, emitting
no request and no log; (d) the exposed plaintext flows exactly into the
`Ocp-Apim-Subscription-Key` header of the emitted requests, the single
place `expose_secret` feeds. -/
theorem api_key_never_in_logs_or_errors {α : Type}
    (model_id endpoint k1 k2 document_url output_format : String)
    (features : Option (List String)) (env : HttpEnv α) (fuel : Nat) :
    (∀ ka kb : SecretString, SecretString.debug_render ka = SecretString.debug_render kb)
    ∧ (valid_header_value k1 = true → valid_header_value k2 = true →
        (analyze_document_from_urls model_id ⟨⟨k1⟩, endpoint⟩ document_url
            output_format features env fuel).logs
          = (analyze_document_from_urls model_id ⟨⟨k2⟩, endpoint⟩ document_url
              output_format features env fuel).logs
        ∧ (analyze_document_from_urls model_id ⟨⟨k1⟩, endpoint⟩ document_url
            output_format features env fuel).result
          = (analyze_document_from_urls model_id ⟨⟨k2⟩, endpoint⟩ document_url
              output_format features env fuel).result)
    ∧ (valid_header_value k1 = false →
        (analyze_document_from_urls model_id ⟨⟨k1⟩, endpoint⟩ document_url
            output_format features env fuel).result
            = DriverResult.done (Except.error "failed to parse header value")
        ∧ (analyze_document_from_urls model_id ⟨⟨k1⟩, endpoint⟩ document_url
            output_format features env fuel).logs = []
        ∧ (analyze_document_from_urls model_id ⟨⟨k1⟩, endpoint⟩ document_url
            output_format features env fuel).requests = [])
    ∧ (∀ req, req ∈ (analyze_document_from_urls model_id ⟨⟨k1⟩, endpoint⟩ document_url
          output_format features env fuel).requests →
        req.auth_key_header = SecretString.expose_secret ⟨k1⟩) := by
  refine ⟨fun ka kb => rfl, ?_, ?_, ?_⟩
  · intro h1 h2
    simp only [analyze_document_from_urls, SecretString.expose_secret, h1, h2, if_true]
    cases env.submit with
    | send_error m => exact ⟨rfl, rfl⟩
    | http_status_error m => exact ⟨rfl, rfl⟩
    | ok_missing_op_loc => exact ⟨rfl, rfl⟩
    | ok_bad_op_loc => exact ⟨rfl, rfl⟩
    | ok loc =>
      have hproj := poll_loop_logs_result_key_free k1 k2 loc env fuel 0
      constructor
      · simp only [DriverTrace.logs]
        rw [show (poll_loop k1 loc env 0 fuel).2.1 = (poll_loop k2 loc env 0 fuel).2.1 from
          congrArg Prod.fst hproj]
      · simp only [DriverTrace.result]
        exact congrArg Prod.snd hproj
  · intro h1
    simp only [analyze_document_from_urls, SecretString.expose_secret, h1, Bool.false_eq_true,
      if_false]
    exact ⟨trivial, trivial, trivial⟩
  · intro req hmem
    simp only [analyze_document_from_urls, SecretString.expose_secret] at hmem
    by_cases hv : valid_header_value k1 = true
    · rw [if_pos hv] at hmem
      cases hp : env.submit with
      | send_error m => rw [hp] at hmem; simp at hmem; subst hmem; rfl
      | http_status_error m => rw [hp] at hmem; simp at hmem; subst hmem; rfl
      | ok_missing_op_loc => rw [hp] at hmem; simp at hmem; subst hmem; rfl
      | ok_bad_op_loc => rw [hp] at hmem; simp at hmem; subst hmem; rfl
      | ok loc =>
        rw [hp] at hmem
        simp at hmem
        cases hmem with
        | inl he => subst he; rfl
        | inr hrest => exact poll_loop_requests_auth k1 loc env fuel 0 req hrest
    · rw [if_neg hv] at hmem
      simp at hmem

/-- Witness for C8: two runs over the same environment differing only in
the api key (`K1` vs `K2`) emit identical logs and an identical result. -/
theorem api_key_never_in_logs_or_errors_witness :
    (analyze_document_from_urls "m" ⟨⟨"K1"⟩, "https://r.example"⟩ "https://doc/a.pdf" "text"
        none witness_env 3).logs
      = (analyze_document_from_urls "m" ⟨⟨"K2"⟩, "https://r.example"⟩ "https://doc/a.pdf" "text"
          none witness_env 3).logs
    ∧ (analyze_document_from_urls "m" ⟨⟨"K1"⟩, "https://r.example"⟩ "https://doc/a.pdf" "text"
        none witness_env 3).result
      = (analyze_document_from_urls "m" ⟨⟨"K2"⟩, "https://r.example"⟩ "https://doc/a.pdf" "text"
          none witness_env 3).result :=
  (api_key_never_in_logs_or_errors "m" "https://r.example" "K1" "K2" "https://doc/a.pdf"
    "text" none witness_env 3).2.1 (by decide) (by decide)

/-- C9: `get_content_type` maps the path's extension case-sensitively
(lowercase literals only): `pdf`, `jpg`/`jpeg`, `png`, `tiff`/`tif`,
`bmp` to their MIME types, and any other or missing extension —
including uppercase variants such as `/tmp/x.PNG` — to
`application/octet-stream`. The mapping depends only on the extracted
extension. -/
theorem content_type_mapping (p q e : String) :
    (path_extension p = path_extension q → get_content_type p = get_content_type q)
    ∧ (path_extension p = some "pdf" → get_content_type p = "application/pdf")
    ∧ (path_extension p = some "jpg" ∨ path_extension p = some "jpeg" →
        get_content_type p = "image/jpeg")
    ∧ (path_extension p = some "png" → get_content_type p = "image/png")
    ∧ (path_extension p = some "tiff" ∨ path_extension p = some "tif" →
        get_content_type p = "image/tiff")
    ∧ (path_extension p = some "bmp" → get_content_type p = "image/bmp")
    ∧ (path_extension p = some e →
        e ∉ (["pdf", "jpg", "jpeg", "png", "tiff", "tif", "bmp"] : List String) →
        get_content_type p = "application/octet-stream")
    ∧ (path_extension p = none → get_content_type p = "application/octet-stream")
    ∧ get_content_type "/tmp/x.PNG" = "application/octet-stream"
    ∧ get_content_type "/tmp/x.png" = "image/png" := by
  refine ⟨?_, ?_, ?_, ?_, ?_, ?_, ?_, ?_, by decide, by decide⟩
  · intro h; simp [get_content_type, h]
  · intro h; simp [get_content_type, h, content_type_of_extension]
  · intro h
    cases h with
    | inl h => simp [get_content_type, h, content_type_of_extension]
    | inr h => simp [get_content_type, h, content_type_of_extension]
  · intro h; simp [get_content_type, h, content_type_of_extension]
  · intro h
    cases h with
    | inl h => simp [get_content_type, h, content_type_of_extension]
    | inr h => simp [get_content_type, h, content_type_of_extension]
  · intro h; simp [get_content_type, h, content_type_of_extension]
  · intro h hn
    simp only [List.mem_cons, List.not_mem_nil, or_false] at hn
    push_neg at hn
    obtain ⟨n1, n2, n3, n4, n5, n6, n7⟩ := hn
    simp only [get_content_type, h, content_type_of_extension]
    rw [if_neg n1, if_neg (by tauto), if_neg n4, if_neg (by tauto), if_neg n7]
  · intro h; simp [get_content_type, h, content_type_of_extension]

/-- Witness for C9 at concrete paths: a lowercase png extension, an
unknown lowercase extension, and equal extensions giving equal content
types. -/
theorem content_type_mapping_witness :
    get_content_type "/documents/receipt2.png" = "image/png"
    ∧ get_content_type "/documents/archive.zip" = "application/octet-stream"
    ∧ get_content_type "a/b/c.pdf" = get_content_type "d.pdf" := by
  refine ⟨?_, ?_, ?_⟩
  · exact (content_type_mapping "/documents/receipt2.png" "" "").2.2.2.1 (by decide)
  · exact (content_type_mapping "/documents/archive.zip" "" "zip").2.2.2.2.2.2.1
      (by decide) (by decide)
  · exact (content_type_mapping "a/b/c.pdf" "d.pdf" "").1 (by decide)

theorem char_eq_iff_toNat {c d : Char} : c = d ↔ c.toNat = d.toNat :=
  Char.ext_iff.trans UInt32.ext_iff

theorem toNat_char_ofNat {n : Nat} (h : n.isValidChar) : (Char.ofNat n).toNat = n := by
  rw [Char.ofNat, dif_pos h]
  simp [Char.ofNatAux, Char.toNat, UInt32.toNat, BitVec.toNat_ofNatLt]

theorem toLower_toNat (c : Char) :
    (Char.toLower c).toNat = if 65 ≤ c.toNat ∧ c.toNat ≤ 90 then c.toNat + 32 else c.toNat := by
  unfold Char.toLower
  simp only [ge_iff_le]
  split_ifs with h
  · exact toNat_char_ofNat (Or.inl (by omega))
  · rfl

theorem isWhitespace_iff_toNat {c : Char} :
    c.isWhitespace = true ↔ (c.toNat = 32 ∨ c.toNat = 9 ∨ c.toNat = 13 ∨ c.toNat = 10) := by
  unfold Char.isWhitespace
  simp only [Bool.or_eq_true, decide_eq_true_eq]
  rw [char_eq_iff_toNat, char_eq_iff_toNat, char_eq_iff_toNat, char_eq_iff_toNat,
    show (' '.toNat) = 32 from rfl, show ('\t'.toNat) = 9 from rfl,
    show ('\x0d'.toNat) = 13 from rfl, show ('\n'.toNat) = 10 from rfl]
  tauto

theorem isWhitespace_toLower (c : Char) : (Char.toLower c).isWhitespace = c.isWhitespace := by
  rw [Bool.eq_iff_iff, isWhitespace_iff_toNat, isWhitespace_iff_toNat, toLower_toNat]
  split_ifs with h <;> omega

theorem map_toLower_dropWhile_ws (l : List Char) :
    (l.dropWhile Char.isWhitespace).map Char.toLower
      = (l.map Char.toLower).dropWhile Char.isWhitespace := by
  induction l with
  | nil => rfl
  | cons a as ih =>
    cases hws : a.isWhitespace with
    | true => simp [List.dropWhile_cons, isWhitespace_toLower, hws, ih]
    | false => simp [List.dropWhile_cons, isWhitespace_toLower, hws]

theorem rust_lower_trim_comm (s : String) :
    rust_to_lowercase (rust_trim s) = rust_trim (rust_to_lowercase s) := by
  apply str_ext
  simp [rust_to_lowercase, rust_trim, List.map_reverse, map_toLower_dropWhile_ws]

theorem dropWhile_ws_append_all (w l : List Char) (hw : ∀ c ∈ w, c.isWhitespace = true) :
    (w ++ l).dropWhile Char.isWhitespace = l.dropWhile Char.isWhitespace := by
  induction w with
  | nil => rfl
  | cons a as ih =>
    rw [List.cons_append, List.dropWhile_cons, if_pos (hw a (by simp))]
    exact ih (fun c hc => hw c (by simp [hc]))

theorem trim_chars_pad (w1 w2 l : List Char)
    (h1 : ∀ c ∈ w1, c.isWhitespace = true) (h2 : ∀ c ∈ w2, c.isWhitespace = true) :
    (((w1 ++ l ++ w2).dropWhile Char.isWhitespace).reverse.dropWhile Char.isWhitespace).reverse
      = ((l.dropWhile Char.isWhitespace).reverse.dropWhile Char.isWhitespace).reverse := by
  rw [List.append_assoc, dropWhile_ws_append_all w1 _ h1, List.dropWhile_append]
  cases hd : l.dropWhile Char.isWhitespace with
  | nil =>
    rw [if_pos (by simp [hd]), List.dropWhile_eq_nil_iff.mpr h2]
  | cons c rest =>
    rw [if_neg (by simp [hd]), List.reverse_append,
      dropWhile_ws_append_all w2.reverse _ (fun c hc => h2 c (List.mem_reverse.mp hc))]

theorem rust_trim_pad (w1 w2 s : String) (h1 : ∀ c ∈ w1.data, c.isWhitespace = true)
    (h2 : ∀ c ∈ w2.data, c.isWhitespace = true) :
    rust_trim (w1 ++ s ++ w2) = rust_trim s := by
  apply str_ext
  simp only [rust_trim, str_data_append]
  exact trim_chars_pad w1.data w2.data s.data h1 h2

/-- C10 counterexample: full `from_str` results are NOT invariant under
whitespace padding and case changes, because the error value embeds the
original input verbatim. `" FOO "` is `"foo"` after whitespace padding
and a case change (their trimmed lowercase forms agree), yet the two
calls return different error values. -/
theorem from_str_error_payload_not_invariant :
    rust_to_lowercase (rust_trim " FOO ") = rust_to_lowercase (rust_trim "foo")
    ∧ OutputContentFormat.from_str " FOO " ≠ OutputContentFormat.from_str "foo" := by
  refine ⟨by decide, by decide⟩

/-- C10 amended: display round-trips through `from_str`; the parse
OUTCOME (`Ok`-format or failure, the error payload disregarded — it
quotes the original string verbatim) depends only on
`to_lowercase(trim(s))`, hence is invariant under whitespace padding and
under case changes; and a successfully parsed format always renders as
exactly `"text"` or `"markdown"`. -/
theorem output_format_round_trip (s t w1 w2 : String) (f : OutputContentFormat) :
    OutputContentFormat.from_str (OutputContentFormat.render f) = Except.ok f
    ∧ (rust_to_lowercase (rust_trim s) = rust_to_lowercase (rust_trim t) →
        parse_outcome s = parse_outcome t)
    ∧ ((∀ c ∈ w1.data, c.isWhitespace = true) → (∀ c ∈ w2.data, c.isWhitespace = true) →
        parse_outcome (w1 ++ s ++ w2) = parse_outcome s)
    ∧ (rust_to_lowercase s = rust_to_lowercase t → parse_outcome s = parse_outcome t)
    ∧ (∀ g, OutputContentFormat.from_str s = Except.ok g →
        OutputContentFormat.render g = "text" ∨ OutputContentFormat.render g = "markdown") := by
  have houtcome : ∀ u v : String,
      rust_to_lowercase (rust_trim u) = rust_to_lowercase (rust_trim v) →
      parse_outcome u = parse_outcome v := by
    intro u v h
    simp only [parse_outcome, OutputContentFormat.from_str, h]
    split_ifs <;> rfl
  refine ⟨?_, houtcome s t, ?_, ?_, ?_⟩
  · cases f <;> decide
  · intro h1 h2
    exact houtcome _ _ (by rw [rust_trim_pad w1 w2 s h1 h2])
  · intro h
    exact houtcome s t (by rw [rust_lower_trim_comm, rust_lower_trim_comm, h])
  · intro g hg
    cases g
    · exact Or.inl rfl
    · exact Or.inr rfl

/-- Witness for C10 amended: both formats round-trip, `" TEXT "` and
`"text"` have the same parse outcome, and an all-whitespace padding of
`"markdown"` parses like `"markdown"`. -/
theorem output_format_round_trip_witness :
    OutputContentFormat.from_str (OutputContentFormat.render OutputContentFormat.Markdown)
        = Except.ok OutputContentFormat.Markdown
    ∧ parse_outcome " TEXT " = parse_outcome "text"
    ∧ parse_outcome (" " ++ "markdown" ++ "\t ") = parse_outcome "markdown" := by
  refine ⟨?_, ?_, ?_⟩
  · exact (output_format_round_trip "" "" "" "" OutputContentFormat.Markdown).1
  · exact (output_format_round_trip " TEXT " "text" "" "" OutputContentFormat.Text).2.1
      (by decide)
  · exact (output_format_round_trip "markdown" "" " " "\t " OutputContentFormat.Text).2.2.1
      (by decide) (by decide)
